import Mathlib

/-!
Verification of the uC IR construction layer and interpreter
(`uc/uc_block.py`, `uc/uc_code.py`, `uc/uc_interpreter.py`).

The development shallowly embeds the Python source:
* Python runtime values handled by the interpreter (ints, floats, strings,
  booleans and the `Uninitialized` marker) become the `Value` type.  Python
  floats are modelled as rationals: the claims under study concern which
  operator the interpreter applies (floor division `//` versus true
  division `/`), not IEEE-754 rounding, which is outside a shallow
  embedding.
* Python exceptions (`TypeError`, `IndexError`, `KeyError`, `ValueError`,
  `ZeroDivisionError`, `UnboundLocalError` slash `AttributeError`) become
  the `PyErr` type; fallible operations return `Except PyErr`.
* The interpreter state (`Interpreter.__init__`) becomes the structure
  `VMSt`; each `run_<op>` handler becomes a `run...` function on `VMSt`,
  and the fetch-increment-dispatch loop of `Interpreter.run` becomes
  `step`.
* The symbolic-variable classes of `uc_block.py` become `PyVar`, with the
  `dataclass`-generated equality embedded separately as `pyVarEq`.
-/

/-- Runtime values of the interpreter: Python ints, floats (modelled as
rationals, see the header), strings, booleans and the `Uninitialized`
marker (`uc_interpreter.Uninit`). -/
inductive Value where
  | int : Int → Value
  | float : ℚ → Value
  | bool : Bool → Value
  | str : String → Value
  | uninit : Value
deriving DecidableEq, Repr

/-- Symbolic variables of `uc_block.py`: `NamedVariable`, `TempVariable`,
`TextVariable` (sanitized type name and version suffix), `GlobalVariable`
and `LabelName`. -/
inductive PyVar where
  | named : String → PyVar
  | temp : Nat → PyVar
  | text : String → Nat → PyVar
  | global : String → PyVar
  | label : String → PyVar
deriving DecidableEq, Repr

/-- Python exceptions that the embedded interpreter code can raise. -/
inductive PyErr where
  | typeError
  | indexError
  | keyError
  | valueError
  | zeroDivision
  | nameError
  | attributeError
deriving DecidableEq, Repr

/-- Operand types of typed instructions (`IntType`, `FloatType`,
`CharType`, ... from `uc.uc_type`); the interpreter dispatches on them by
identity in `run_div` and `run_read`. -/
inductive IRType where
  | int
  | float
  | char
  | bool
  | string
  | void
deriving DecidableEq, Repr

/-- Python truthiness (`bool(x)`) for the interpreter's values; the
`Uninitialized` marker defines `__bool__` returning `False`
(uc_interpreter.py line 110). -/
def truthy : Value → Bool
  | .int n => n ≠ 0
  | .float q => q ≠ 0
  | .bool b => b
  | .str s => s ≠ ""
  | .uninit => false

/-- Integral view of a value: Python `bool` is a subtype of `int`.  -/
def intVal : Value → Option Int
  | .int n => some n
  | .bool b => some (if b then 1 else 0)
  | _ => none

/-- Numeric view of a value as a rational (ints, bools and floats). -/
def numQ : Value → Option ℚ
  | .int n => some (n : ℚ)
  | .bool b => some (if b then 1 else 0)
  | .float q => some q
  | _ => none

/-- Python `x + y` as used by `run_add`: the `Uninitialized` marker
absorbs (`__add__`/`__radd__` return `self`), int/bool arithmetic stays
integral, any float makes the result float, strings concatenate, other
combinations raise `TypeError`. -/
def pyAdd : Value → Value → Except PyErr Value
  | .uninit, _ => .ok .uninit
  | _, .uninit => .ok .uninit
  | .str s, .str t => .ok (.str (s ++ t))
  | a, b =>
    match intVal a, intVal b with
    | some x, some y => .ok (.int (x + y))
    | _, _ =>
      match numQ a, numQ b with
      | some x, some y => .ok (.float (x + y))
      | _, _ => .error .typeError

/-- Python `x - y` as used by `run_sub` (marker absorbing). -/
def pySub : Value → Value → Except PyErr Value
  | .uninit, _ => .ok .uninit
  | _, .uninit => .ok .uninit
  | a, b =>
    match intVal a, intVal b with
    | some x, some y => .ok (.int (x - y))
    | _, _ =>
      match numQ a, numQ b with
      | some x, some y => .ok (.float (x - y))
      | _, _ => .error .typeError

/-- Python `x * y` as used by `run_mul` (marker absorbing; the
string-repetition form `str * int` is not reached by generated code and
is mapped to `TypeError` here). -/
def pyMul : Value → Value → Except PyErr Value
  | .uninit, _ => .ok .uninit
  | _, .uninit => .ok .uninit
  | a, b =>
    match intVal a, intVal b with
    | some x, some y => .ok (.int (x * y))
    | _, _ =>
      match numQ a, numQ b with
      | some x, some y => .ok (.float (x * y))
      | _, _ => .error .typeError

/-- Floored remainder on rationals, matching Python `%` on floats. -/
def ratFMod (x y : ℚ) : ℚ := x - y * (⌊x / y⌋ : ℚ)

/-- Python `x % y` as used by `run_mod`: the marker absorbs
(`__mod__`/`__rmod__`), integral `%` is the floored remainder
(`Int.fmod`), `y = 0` raises `ZeroDivisionError`. -/
def pyMod : Value → Value → Except PyErr Value
  | .uninit, _ => .ok .uninit
  | _, .uninit => .ok .uninit
  | a, b =>
    match intVal a, intVal b with
    | some x, some y =>
      if y = 0 then .error .zeroDivision else .ok (.int (Int.fmod x y))
    | _, _ =>
      match numQ a, numQ b with
      | some x, some y =>
        if y = 0 then .error .zeroDivision else .ok (.float (ratFMod x y))
      | _, _ => .error .typeError

/-- Python `x // y` as used by `run_div` on non-float types.  The
`Uninitialized` class defines `__div__`/`__rdiv__` (Python 2 relics) and
`__truediv__`/`__rtruediv__`, but no `__floordiv__`/`__rfloordiv__`
(uc_interpreter.py lines 82-99), so `//` with the marker on either side
raises `TypeError`.  On ints Python `//` is floor division
(`Int.fdiv`). -/
def pyFloorDiv : Value → Value → Except PyErr Value
  | .uninit, _ => .error .typeError
  | _, .uninit => .error .typeError
  | a, b =>
    match intVal a, intVal b with
    | some x, some y =>
      if y = 0 then .error .zeroDivision else .ok (.int (Int.fdiv x y))
    | _, _ =>
      match numQ a, numQ b with
      | some x, some y =>
        if y = 0 then .error .zeroDivision
        else .ok (.float ((⌊x / y⌋ : ℚ)))
      | _, _ => .error .typeError

/-- Python `x / y` as used by `run_div` on the float type: the marker
absorbs (`__truediv__`/`__rtruediv__`), `y = 0` raises
`ZeroDivisionError`, and the quotient is exact on the rational model
(Python `int / int` also yields a float). -/
def pyTrueDiv : Value → Value → Except PyErr Value
  | .uninit, _ => .ok .uninit
  | _, .uninit => .ok .uninit
  | a, b =>
    match numQ a, numQ b with
    | some x, some y =>
      if y = 0 then .error .zeroDivision else .ok (.float (x / y))
    | _, _ => .error .typeError

/-- Python `x < y` as used by `run_lt`: the marker's `_cmp` returns
`False` from either side (its own `__lt__`, or the reflected `__gt__`
after the number's `__lt__` returns `NotImplemented`); numbers compare
numerically, strings lexicographically, mixed kinds raise `TypeError`. -/
def pyLt : Value → Value → Except PyErr Value
  | .uninit, _ => .ok (.bool false)
  | _, .uninit => .ok (.bool false)
  | a, b =>
    match numQ a, numQ b with
    | some x, some y => .ok (.bool (decide (x < y)))
    | _, _ =>
      match a, b with
      | .str s, .str t => .ok (.bool (decide (s < t)))
      | _, _ => .error .typeError

/-- Python `x <= y` (`run_le`), marker rules as in `pyLt`. -/
def pyLe : Value → Value → Except PyErr Value
  | .uninit, _ => .ok (.bool false)
  | _, .uninit => .ok (.bool false)
  | a, b =>
    match numQ a, numQ b with
    | some x, some y => .ok (.bool (decide (x ≤ y)))
    | _, _ =>
      match a, b with
      | .str s, .str t => .ok (.bool (decide (s ≤ t)))
      | _, _ => .error .typeError

/-- Python `x > y` (`run_gt`), marker rules as in `pyLt`. -/
def pyGt : Value → Value → Except PyErr Value
  | .uninit, _ => .ok (.bool false)
  | _, .uninit => .ok (.bool false)
  | a, b =>
    match numQ a, numQ b with
    | some x, some y => .ok (.bool (decide (y < x)))
    | _, _ =>
      match a, b with
      | .str s, .str t => .ok (.bool (decide (t < s)))
      | _, _ => .error .typeError

/-- Python `x >= y` (`run_ge`), marker rules as in `pyLt`. -/
def pyGe : Value → Value → Except PyErr Value
  | .uninit, _ => .ok (.bool false)
  | _, .uninit => .ok (.bool false)
  | a, b =>
    match numQ a, numQ b with
    | some x, some y => .ok (.bool (decide (y ≤ x)))
    | _, _ =>
      match a, b with
      | .str s, .str t => .ok (.bool (decide (t ≤ s)))
      | _, _ => .error .typeError

/-- Python `x == y` (`run_eq`): the marker's `__eq__` returns `False`
from either side; cross-kind comparisons are `False`, never an error. -/
def pyEq : Value → Value → Except PyErr Value
  | .uninit, _ => .ok (.bool false)
  | _, .uninit => .ok (.bool false)
  | a, b =>
    match numQ a, numQ b with
    | some x, some y => .ok (.bool (decide (x = y)))
    | _, _ =>
      match a, b with
      | .str s, .str t => .ok (.bool (decide (s = t)))
      | _, _ => .ok (.bool false)

/-- Python `x != y` (`run_ne`): note that the marker's `__ne__` is also
`_cmp`, so `x != Uninit` is `False` as well; other cross-kind pairs are
`True`. -/
def pyNe : Value → Value → Except PyErr Value
  | .uninit, _ => .ok (.bool false)
  | _, .uninit => .ok (.bool false)
  | a, b =>
    match numQ a, numQ b with
    | some x, some y => .ok (.bool (decide (x ≠ y)))
    | _, _ =>
      match a, b with
      | .str s, .str t => .ok (.bool (decide (s ≠ t)))
      | _, _ => .ok (.bool true)

/-- Python `x and y` (`run_and`): truthiness-based selection, never an
error; the marker is falsy so `Uninit and y` is `Uninit`. -/
def pyAndV (x y : Value) : Except PyErr Value :=
  .ok (if truthy x then y else x)

/-- Python `x or y` (`run_or`). -/
def pyOrV (x y : Value) : Except PyErr Value :=
  .ok (if truthy x then x else y)

/-- Python `not x` (`run_not`). -/
def pyNotV (x : Value) : Value := .bool (!truthy x)

instance exceptDecEq {ε α : Type} [DecidableEq ε] [DecidableEq α] :
    DecidableEq (Except ε α)
  | .ok a, .ok b =>
    if h : a = b then .isTrue (by rw [h]) else .isFalse (by simp [h])
  | .ok _, .error _ => .isFalse (by simp)
  | .error _, .ok _ => .isFalse (by simp)
  | .error e, .error f =>
    if h : e = f then .isTrue (by rw [h]) else .isFalse (by simp [h])

example : pyAdd .uninit (.int 3) = .ok .uninit := by decide
example : pyFloorDiv .uninit (.int 2) = .error .typeError := by decide
example : pyFloorDiv (.int (-7)) (.int 2) = .ok (.int (-4)) := by decide
example : pyNe (.int 5) .uninit = .ok (.bool false) := by decide

/-- The `dataclass(frozen=True)`-generated equality of `uc_block.Variable`
and its subclasses: `other.__class__ is self.__class__` and then
comparison of the declared dataclass fields, which is only `name`.
`TextVariable.version` is a plain slot set in `__init__`, not a dataclass
field, so it does not participate. -/
def pyVarEq : PyVar → PyVar → Bool
  | .named a, .named b => a == b
  | .temp a, .temp b => a == b
  | .text a _, .text b _ => a == b
  | .global a, .global b => a == b
  | .label a, .label b => a == b
  | _, _ => false

/-- Discriminator for the concrete Python class of a symbolic variable. -/
def pyVarKind : PyVar → Nat
  | .named _ => 0
  | .temp _ => 1
  | .text _ _ => 2
  | .global _ => 3
  | .label _ => 4

/-- The `name` dataclass field of a symbolic variable (a string, or the
temporary's number). -/
def pyVarPayload : PyVar → String ⊕ Nat
  | .named s => .inl s
  | .temp n => .inr n
  | .text s _ => .inl s
  | .global s => .inl s
  | .label s => .inl s

/-- The `dataclass(frozen=True)`-generated hash is `hash((self.name,))`:
a function of the `name` field alone.  We model it by that field. -/
def pyVarHash (v : PyVar) : String ⊕ Nat := pyVarPayload v

/-- Dictionary lookup keyed by symbolic variables, using the Python
(dataclass) equality `pyVarEq` — the semantics of `self.vars[key]` and
`self.globals[key]`. -/
def scopeGet : List (PyVar × Nat) → PyVar → Option Nat
  | [], _ => none
  | (k, v) :: rest, key => if pyVarEq k key then some v else scopeGet rest key

/-- Dictionary assignment `d[key] = v`: replaces the value of an existing
key (keeping the stored key object, as Python dicts do) or appends. -/
def scopeSet : List (PyVar × Nat) → PyVar → Nat → List (PyVar × Nat)
  | [], key, v => [(key, v)]
  | (k, w) :: rest, key, v =>
    if pyVarEq k key then (k, v) :: rest else (k, w) :: scopeSet rest key v

/-- Lookup in `self.labels` (function symbol to label-offset list). -/
def labelsGet : List (PyVar × List (String × Nat)) → PyVar → Option (List (String × Nat))
  | [], _ => none
  | (k, v) :: rest, key => if pyVarEq k key then some v else labelsGet rest key

/-- `Interpreter._alloc_reg`: grow the register bank with `Uninit` up to
and including index `t` (the handlers then index the bank directly). -/
def allocReg (regs : List Value) (t : Nat) : List Value :=
  if regs.length ≤ t then regs ++ List.replicate (t + 1 - regs.length) Value.uninit
  else regs

/-- Reading a register: registers beyond the bank read as `Uninit`
(the bank is always grown by `_alloc_reg` before a direct read). -/
def regRead (regs : List Value) (n : Nat) : Value := regs.getD n Value.uninit

/-- Python `M[i]` on a list: direct indexing with negative-index
wrap-around, `IndexError` out of range. -/
def memIndex (m : List Value) (i : Int) : Except PyErr Value :=
  if 0 ≤ i then
    match m.get? i.toNat with
    | some v => .ok v
    | none => .error .indexError
  else if 0 ≤ (m.length : Int) + i then
    match m.get? ((m.length : Int) + i).toNat with
    | some v => .ok v
    | none => .error .indexError
  else .error .indexError

/-- Python `M[i] = v`: direct index assignment with negative-index
wrap-around, `IndexError` out of range. -/
def memSetIdx (m : List Value) (i : Int) (v : Value) : Except PyErr (List Value) :=
  if 0 ≤ i then
    if i.toNat < m.length then .ok (m.set i.toNat v) else .error .indexError
  else if 0 ≤ (m.length : Int) + i then .ok (m.set ((m.length : Int) + i).toNat v)
  else .error .indexError

/-- The element access of `Interpreter._load_multiple` with size 1:
`M[source : source + 1]` followed by `[0]`.  Python slicing clamps
instead of raising, so the only error is taking `[0]` of an empty slice;
note that slice semantics make `M[-1 : 0]` empty, unlike `M[-1]`. -/
def memSlice1 (m : List Value) (i : Int) : Option Value :=
  if 0 ≤ i then m.get? i.toNat
  else if i = -1 then none
  else if (m.length : Int) + i < 0 then none
  else m.get? ((m.length : Int) + i).toNat

/-- Python slice assignment `m[a : a + len vs] = vs` as used by
`Interpreter._store_value` for list values ("overwrite data, if size is
wrong"): indices are resolved and clamped like Python slice bounds, and
the selected span is replaced by `vs`. -/
def memSetSlice (m : List Value) (a : Int) (vs : List Value) : List Value :=
  let n := m.length
  let resolve : Int → Nat := fun x =>
    (min (max (if x < 0 then (n : Int) + x else x) 0) (n : Int)).toNat
  let s := resolve a
  let e := max s (resolve (a + vs.length))
  m.take s ++ vs ++ m.drop e

/-- `list.pop()` — removes and returns the last element, `None` when the
list is empty (callers guard with `if self.params`). -/
def popLast (l : List Value) : Option (List Value × Value) :=
  match l.getLast? with
  | none => none
  | some v => some (l.dropLast, v)

/-- The interpreter state (`Interpreter.__init__` plus the process-level
I/O channels).  `mem` is the flat memory `M`; `stdin` is the remaining
input lines (without trailing newline, the empty list meaning end of
file); `input` is the buffered line `self.input`; `out` records `print`
output (`none` for a bare newline) and `err` the diagnostic stream. -/
structure VMSt where
  mem : List Value
  globals : List (PyVar × Nat)
  vars : List (PyVar × Nat)
  registers : List Value
  labels : List (PyVar × List (String × Nat))
  offset : Nat
  stack : List (List (PyVar × Nat) × List Value)
  sp : List Nat
  params : List Value
  retval : List Nat
  returns : List Nat
  pc : Nat
  input : Option String
  stdin : List String
  out : List (Option Value)
  err : List String
deriving DecidableEq, Repr

/-- A fresh interpreter state over the given memory and register bank. -/
def VMSt.mk0 (mem regs : List Value) : VMSt :=
  { mem := mem, globals := [], vars := [], registers := regs, labels := [],
    offset := 0, stack := [], sp := [], params := [], retval := [],
    returns := [], pc := 0, input := none, stdin := [], out := [], err := [] }

/-- Append a line to the diagnostic stream (`printerr`). -/
def pushErr (st : VMSt) (msg : String) : VMSt :=
  { st with err := st.err ++ [msg] }

/-- `Interpreter._get_label`: globals resolve through `self.globals`,
everything else through `self.vars`; a missing key is a `KeyError`. -/
def loadAddr (st : VMSt) (v : PyVar) : Except PyErr Nat :=
  match v with
  | .global n =>
    match scopeGet st.globals (.global n) with
    | some a => .ok a
    | none => .error .keyError
  | other =>
    match scopeGet st.vars other with
    | some a => .ok a
    | none => .error .keyError

/-- `Interpreter._get_value`: a temporary reads its register (growing the
bank first), any other variable evaluates to its address. -/
def getValue (st : VMSt) (v : PyVar) : Except PyErr (Value × VMSt) :=
  match v with
  | .temp n =>
    let regs := allocReg st.registers n
    .ok (regRead regs n, { st with registers := regs })
  | other => (loadAddr st other).map fun a => (.int (a : Int), st)

/-- `Interpreter._load_value` applied to a value already computed by
`_get_value`: an int (or bool) indexes memory through the slice took in
`_load_multiple`; any other value falls into `_get_label`, whose
dictionary lookup fails with `KeyError` (the marker compares unequal to
every key). -/
def loadValue1 (m : List Value) (a : Value) : Except PyErr Value :=
  match a with
  | .int i =>
    match memSlice1 m i with
    | some v => .ok v
    | none => .error .indexError
  | .bool b =>
    match memSlice1 m (if b then 1 else 0) with
    | some v => .ok v
    | none => .error .indexError
  | _ => .error .keyError

/-- `Interpreter._store_value` with a single (non-list) value: an int (or
bool) address is a direct index assignment; any other address value hits
`self._get_address(address)`, a method that does not exist on the class,
so Python raises `AttributeError`. -/
def storeValue1 (st : VMSt) (a : Value) (v : Value) : Except PyErr VMSt :=
  match a with
  | .int i => (memSetIdx st.mem i v).map fun m => { st with mem := m }
  | .bool b =>
    (memSetIdx st.mem (if b then 1 else 0) v).map fun m => { st with mem := m }
  | _ => .error .attributeError

/-- `Interpreter._store_value` with a list value: slice assignment (see
`memSetSlice`); a non-int address raises `AttributeError` as above. -/
def storeValueList (st : VMSt) (a : Value) (vs : List Value) : Except PyErr VMSt :=
  match a with
  | .int i => .ok { st with mem := memSetSlice st.mem i vs }
  | .bool b => .ok { st with mem := memSetSlice st.mem (if b then 1 else 0) vs }
  | _ => .error .attributeError

/-- Strip leading and trailing whitespace, as `int(...)`/`float(...)`
allow around a numeric literal. -/
def stripWs (cs : List Char) : List Char :=
  ((cs.dropWhile Char.isWhitespace).reverse.dropWhile Char.isWhitespace).reverse

/-- A nonempty all-digit character run to its numeric value. -/
def digitsVal (cs : List Char) : Option Nat :=
  if cs = [] then none
  else if cs.all Char.isDigit then
    some (cs.foldl (fun a c => a * 10 + (c.toNat - '0'.toNat)) 0)
  else none

/-- `digitsVal` with the empty run reading as 0, for fraction parts. -/
def digitsVal0 (cs : List Char) : Nat :=
  cs.foldl (fun a c => a * 10 + (c.toNat - '0'.toNat)) 0

/-- Python `int(word)` on the decimal literals produced by tokenized
input: optional surrounding whitespace, optional sign, a nonempty digit
run.  (Underscore separators and non-decimal bases are not modelled.) -/
def parsePyInt (s : String) : Option Int :=
  match stripWs s.data with
  | '+' :: rest => (digitsVal rest).map Int.ofNat
  | '-' :: rest => (digitsVal rest).map fun n => -(n : Int)
  | rest => (digitsVal rest).map Int.ofNat

/-- Python `float(word)` on plain decimal literals: optional sign,
digits with an optional fraction (`"3"`, `"3."`, `".5"`, `"2.75"`).
Exponents, `inf` and `nan` are not modelled. -/
def parsePyFloat (s : String) : Option ℚ :=
  let core : List Char → Option ℚ := fun cs =>
    let ip := cs.takeWhile Char.isDigit
    let rest := cs.dropWhile Char.isDigit
    match rest with
    | [] => (digitsVal ip).map fun n => (n : ℚ)
    | '.' :: fp =>
      if fp.all Char.isDigit ∧ (ip ≠ [] ∨ fp ≠ []) then
        some ((digitsVal0 ip : ℚ) + (digitsVal0 fp : ℚ) / ((10 : ℚ) ^ fp.length))
      else none
    | _ => none
  match stripWs s.data with
  | '+' :: rest => core rest
  | '-' :: rest => (core rest).map Neg.neg
  | rest => core rest

/-- Python `line.split(" ", maxsplit=1)` followed by two-element
unpacking: splits at the first single space; when the line contains no
space the split yields a one-element list and the unpacking raises
`ValueError` — modelled by `none`. -/
def splitOnceSpaceAux : List Char → Option (List Char × List Char)
  | [] => none
  | c :: rest =>
    if c = ' ' then some ([], rest)
    else (splitOnceSpaceAux rest).map fun p => (c :: p.1, p.2)

/-- String form of `splitOnceSpaceAux`. -/
def splitOnceSpace (s : String) : Option (String × String) :=
  (splitOnceSpaceAux s.data).map fun p => (String.mk p.1, String.mk p.2)

/-- Truthiness of the `self.input` buffer (`while not self.input`). -/
def truthyInput : Option String → Bool
  | none => false
  | some s => s != ""

/-- `Interpreter._read_line`: loop until the buffer is truthy, refilling
from standard input; at end of file `readline()` returns `""` forever,
the diagnostic is printed and the buffer is set to `""` again, so the
loop never exits — the fuel argument bounds the number of iterations and
`none` means the loop is still running after that many iterations. -/
def readLineLoop : Nat → VMSt → Option (String × VMSt)
  | 0, _ => none
  | fuel + 1, st =>
    if truthyInput st.input then some (st.input.getD "", st)
    else
      match st.stdin with
      | [] =>
        readLineLoop fuel
          { st with err := st.err ++ ["Unexpected end of input file."],
                    input := some "" }
      | l :: rest =>
        readLineLoop fuel { st with stdin := rest, input := some l }

/-- `Interpreter._read_word`: read the buffered line, split at the first
space, keep the remainder in the buffer.  The state returned alongside a
`ValueError` is the state at the raise (the buffer refills persist, the
buffer itself is not consumed). -/
def readWord (fuel : Nat) (st : VMSt) : Option (VMSt × Except PyErr String) :=
  match readLineLoop fuel st with
  | none => none
  | some (line, st) =>
    match splitOnceSpace line with
    | none => some (st, .error .valueError)
    | some (w, rest) => some ({ st with input := some rest }, .ok w)

/-- `Interpreter._read_char`: take the first character of the buffered
line (the loop guarantees it is nonempty; an empty line would raise
`IndexError`). -/
def readChar (fuel : Nat) (st : VMSt) : Option (VMSt × Except PyErr String) :=
  match readLineLoop fuel st with
  | none => none
  | some (line, st) =>
    match line.data with
    | [] => some (st, .error .indexError)
    | c :: rest =>
      some ({ st with input := some (String.mk rest) }, .ok (String.mk [c]))

/-- Binary opcodes dispatched through `Interpreter._run_binop`. -/
inductive BinOp where
  | add | sub | mul | div | mod
  | lt | le | gt | ge | eq | ne
  | land | lor
deriving DecidableEq, Repr

/-- Modelled from the spec: the instruction classes live in `uc.uc_ir`,
which is not part of the sources under study (only `uc_block.py` carries
near copies); operand shapes follow the section 4.1 catalogue — `alloc
varname`, `literal value → target`, `elem source, index → target`, `load
varname → target`, `store source → target`, `get source → target`,
`jump label`, `cbranch test, true_target, false_target`, binary or unary
operations with a target, `call source, target?`, `return target?`,
`define source, args`, `param source`, `read source`, `print source?`.
`alloc` carries the storage size in units, standing for
`sizeof(instr.type)` (from `uc.uc_ast`, also outside the sources). -/
inductive Instr where
  | label (name : String)
  | alloc (size : Nat) (varname : PyVar)
  | literal (ty : IRType) (value : Value) (target : Nat)
  | elem (ty : IRType) (source index : PyVar) (target : Nat)
  | load (ty : IRType) (varname : PyVar) (target : Nat)
  | store (ty : IRType) (source target : PyVar)
  | get (ty : IRType) (source : PyVar) (target : Nat)
  | jump (target : PyVar)
  | cbranch (test : PyVar) (trueTarget falseTarget : Option PyVar)
  | binop (op : BinOp) (ty : IRType) (left right : PyVar) (target : Nat)
  | lnot (ty : IRType) (expr : PyVar) (target : Nat)
  | call (ty : IRType) (source : PyVar) (target : Option Nat)
  | ret (ty : IRType) (target : Option PyVar)
  | define (ty : IRType) (source : PyVar) (args : List (IRType × Nat))
  | param (ty : IRType) (source : PyVar)
  | read (ty : IRType) (source : PyVar)
  | print (ty : IRType) (source : Option PyVar)
deriving DecidableEq, Repr

/-- `Interpreter.run_alloc`: a temporary target receives the allocated
address in its register; a named variable records the address in the
local table.  `_alloc_data` bumps `self.offset` by the size. -/
def runAlloc (varname : PyVar) (size : Nat) (st : VMSt) : Except PyErr VMSt :=
  match varname with
  | .temp n =>
    let regs := allocReg st.registers n
    .ok { st with registers := regs.set n (.int (st.offset : Int)),
                  offset := st.offset + size }
  | v =>
    .ok { st with vars := scopeSet st.vars v st.offset,
                  offset := st.offset + size }

/-- `Interpreter.run_literal`. -/
def runLiteral (v : Value) (target : Nat) (st : VMSt) : Except PyErr VMSt :=
  let regs := allocReg st.registers target
  .ok { st with registers := regs.set target v }

/-- `Interpreter.run_elem`: `self.registers[target] = M[base + idx]` — a
memory *read* at address `base + idx` whose result overwrites the target
register. -/
def runElem (source index : PyVar) (target : Nat) (st : VMSt) :
    Except PyErr VMSt := do
  let st := { st with registers := allocReg st.registers target }
  let (base, st) ← getValue st source
  let (idx, st) ← getValue st index
  let s ← pyAdd base idx
  let v ← match s with
    | .int i => memIndex st.mem i
    | .bool b => memIndex st.mem (if b then 1 else 0)
    | _ => .error .typeError
  .ok { st with registers := st.registers.set target v }

/-- `Interpreter.run_load`. -/
def runLoad (varname : PyVar) (target : Nat) (st : VMSt) : Except PyErr VMSt := do
  let st := { st with registers := allocReg st.registers target }
  let (addr, st) ← getValue st varname
  let v ← loadValue1 st.mem addr
  .ok { st with registers := st.registers.set target v }

/-- `Interpreter.run_store`: `M[target] = value` with both operands read
through `_get_value`; a non-integral target address is a `TypeError`
(list indices must be integers). -/
def runStore (source target : PyVar) (st : VMSt) : Except PyErr VMSt := do
  let (v, st) ← getValue st source
  let (t, st) ← getValue st target
  match t with
  | .int a => (memSetIdx st.mem a v).map fun m => { st with mem := m }
  | .bool b => (memSetIdx st.mem (if b then 1 else 0) v).map fun m => { st with mem := m }
  | _ => .error .typeError

/-- `Interpreter.run_get`: the target register receives the source's
address. -/
def runGet (source : PyVar) (target : Nat) (st : VMSt) : Except PyErr VMSt := do
  let st := { st with registers := allocReg st.registers target }
  let a ← loadAddr st source
  .ok { st with registers := st.registers.set target (.int (a : Int)) }

/-- `Interpreter.run_jump`: `self.pc = self.vars[jump.target]`. -/
def runJump (target : PyVar) (st : VMSt) : Except PyErr VMSt :=
  match scopeGet st.vars target with
  | some a => .ok { st with pc := a }
  | none => .error .keyError

/-- `Interpreter.run_cbranch`: branch on the truthiness of the test (the
`Uninitialized` marker is falsy); `None` targets fall through. -/
def runCBranch (test : PyVar) (trueTarget falseTarget : Option PyVar)
    (st : VMSt) : Except PyErr VMSt := do
  let (v, st) ← getValue st test
  let tgt := if truthy v then trueTarget else falseTarget
  match tgt with
  | none => .ok st
  | some t =>
    match loadAddr st t with
    | .ok a => .ok { st with pc := a }
    | .error e => .error e

/-- `Interpreter._run_binop` around a value operation. -/
def runBinRaw (f : Value → Value → Except PyErr Value) (left right : PyVar)
    (target : Nat) (st : VMSt) : Except PyErr VMSt := do
  let (x, st) ← getValue st left
  let (y, st) ← getValue st right
  let regs := allocReg st.registers target
  let v ← f x y
  .ok { st with registers := regs.set target v }

/-- `Interpreter.run_div`: true division when `instr.type is FloatType`,
floor division (`//`) for every other type. -/
def runDiv (ty : IRType) (left right : PyVar) (target : Nat) (st : VMSt) :
    Except PyErr VMSt :=
  if ty = .float then runBinRaw pyTrueDiv left right target st
  else runBinRaw pyFloorDiv left right target st

/-- The value operation of each non-division binary opcode. -/
def binFun : BinOp → Value → Value → Except PyErr Value
  | .add => pyAdd
  | .sub => pySub
  | .mul => pyMul
  | .mod => pyMod
  | .lt => pyLt
  | .le => pyLe
  | .gt => pyGt
  | .ge => pyGe
  | .eq => pyEq
  | .ne => pyNe
  | .land => pyAndV
  | .lor => pyOrV
  | .div => pyFloorDiv

/-- Dispatch of `run_add` ... `run_or`, with `run_div` special-cased on
the operand type. -/
def runBinop (op : BinOp) (ty : IRType) (left right : PyVar) (target : Nat)
    (st : VMSt) : Except PyErr VMSt :=
  match op with
  | .div => runDiv ty left right target st
  | o => runBinRaw (binFun o) left right target st

/-- `Interpreter.run_not`. -/
def runNot (expr : PyVar) (target : Nat) (st : VMSt) : Except PyErr VMSt := do
  let (x, st) ← getValue st expr
  let regs := allocReg st.registers target
  .ok { st with registers := regs.set target (pyNotV x) }

/-- `Interpreter._push`: grow the caller bank for the return-value
register (`call.target or 0` — an absent target designates register 0),
save the caller's local table and (grown) bank, clear the bank, and push
offset, target register and return program counter. -/
def pushFrame (st : VMSt) (target : Option Nat) : VMSt :=
  let tgt := target.getD 0
  let regs := allocReg st.registers tgt
  { st with registers := [],
            stack := (st.vars, regs) :: st.stack,
            sp := st.offset :: st.sp,
            retval := tgt :: st.retval,
            returns := st.pc :: st.returns }

/-- `Interpreter._pop`: read the callee's register 0, restore the
caller's table and bank, write the return value into the recorded target
register, restore the offset and jump to the saved return counter.  An
empty bank or an empty stack raises `IndexError`. -/
def popFrame (st : VMSt) : Except PyErr VMSt :=
  match st.registers with
  | [] => .error .indexError
  | r0 :: _ =>
    match st.stack, st.retval, st.sp, st.returns with
    | (v, regs) :: stk, tgt :: rv, off :: sps, r :: rets =>
      if tgt < regs.length then
        .ok { st with vars := v, registers := regs.set tgt r0, stack := stk,
                      retval := rv, offset := off, sp := sps, returns := rets,
                      pc := r }
      else .error .indexError
    | _, _, _, _ => .error .indexError

/-- The jump half of `Interpreter.run_call`: set the program counter to
the callee entry `self._load_value(call.source)`.  (A non-integer or
negative entry would crash the Python fetch one step later; it is
reported as an error here directly.) -/
def runCallJump (source : PyVar) (st : VMSt) : Except PyErr VMSt :=
  match loadAddr st source with
  | .error e => .error e
  | .ok a =>
    match memSlice1 st.mem (a : Int) with
    | none => .error .indexError
    | some v =>
      match v with
      | .int e => if 0 ≤ e then .ok { st with pc := e.toNat } else .error .valueError
      | _ => .error .typeError

/-- `Interpreter.run_call`: push the frame, then jump to the callee. -/
def runCall (source : PyVar) (target : Option Nat) (st : VMSt) :
    Except PyErr VMSt :=
  runCallJump source (pushFrame st target)

/-- `Interpreter.run_return`: optionally copy the returned operand into
register 0 of the current bank (an index assignment, so an empty bank
raises `IndexError`), then pop the frame. -/
def runReturn (target : Option PyVar) (st : VMSt) : Except PyErr VMSt :=
  match target with
  | none => popFrame st
  | some t =>
    match getValue st t with
    | .error e => .error e
    | .ok (v, st) =>
      match st.registers with
      | [] => .error .indexError
      | _ :: _ => popFrame { st with registers := st.registers.set 0 v }

/-- The parameter-binding loop of `Interpreter.run_define`: formals in
reversed order each allocate their register and, while actuals remain,
pop the most recent actual into it. -/
def defineLoop : List (IRType × Nat) → List Value → List Value →
    List Value × List Value
  | [], regs, ps => (regs, ps)
  | (_, r) :: rest, regs, ps =>
    match popLast ps with
    | none => defineLoop rest (allocReg regs r) ps
    | some (ps', v) => defineLoop rest ((allocReg regs r).set r v) ps'

/-- `Interpreter._alloc_labels`: rebuild the local table from the label
offsets of the function, relative to the current program counter. -/
def allocLabels (pc : Nat) (lbls : List (String × Nat)) : List (PyVar × Nat) :=
  lbls.foldl (fun d p => scopeSet d (.label p.1) (pc + p.2)) []

/-- `Interpreter.run_define`: bind formals (reversed, popping queued
actuals while any remain), empty the parameter queue, clear the local
table and re-establish this function's label offsets. -/
def runDefine (source : PyVar) (args : List (IRType × Nat)) (st : VMSt) :
    Except PyErr VMSt :=
  let (regs, _) := defineLoop args.reverse st.registers st.params
  match labelsGet st.labels source with
  | none => .error .keyError
  | some lbls =>
    .ok { st with registers := regs, params := [],
                  vars := allocLabels st.pc lbls }

/-- `Interpreter.run_param`. -/
def runParam (source : PyVar) (st : VMSt) : Except PyErr VMSt := do
  let (v, st) ← getValue st source
  .ok { st with params := st.params ++ [v] }

/-- `Interpreter.run_print`: record the printed value (`none` is the
operand-less bare newline). -/
def runPrint (source : Option PyVar) (st : VMSt) : Except PyErr VMSt :=
  match source with
  | none => .ok { st with out := st.out ++ [none] }
  | some s => do
    let (v, st) ← getValue st s
    .ok { st with out := st.out ++ [some v] }

/-- The store half of `run_read` (`_get_value` then `_store_value`);
exceptions here are not `ValueError` and therefore escape the handler. -/
def readStore (st : VMSt) (source : PyVar) (v : Value) : Except PyErr VMSt := do
  let (a, st) ← getValue st source
  storeValue1 st a v

/-- `Interpreter.run_read`: parse one token (`int`/`float`), one raw
character (`char`) or one raw line (anything else), then store.  A
`ValueError` — from the token unpacking in `_read_word` or from the
numeric conversion — prints `Illegal input value.` and abandons the
read; the outer `Option` is the `_read_line` fuel (`none`: the refill
loop is still running). -/
def runRead (fuel : Nat) (ty : IRType) (source : PyVar) (st : VMSt) :
    Option (Except PyErr VMSt) :=
  match ty with
  | .int =>
    match readWord fuel st with
    | none => none
    | some (st, .error .valueError) =>
      some (.ok (pushErr st "Illegal input value."))
    | some (_, .error e) => some (.error e)
    | some (st, .ok w) =>
      match parsePyInt w with
      | none => some (.ok (pushErr st "Illegal input value."))
      | some z => some (readStore st source (.int z))
  | .float =>
    match readWord fuel st with
    | none => none
    | some (st, .error .valueError) =>
      some (.ok (pushErr st "Illegal input value."))
    | some (_, .error e) => some (.error e)
    | some (st, .ok w) =>
      match parsePyFloat w with
      | none => some (.ok (pushErr st "Illegal input value."))
      | some q => some (readStore st source (.float q))
  | .char =>
    match readChar fuel st with
    | none => none
    | some (_, .error e) => some (.error e)
    | some (st, .ok c) => some (readStore st source (.str c))
  | _ =>
    match readLineLoop fuel st with
    | none => none
    | some (line, st) => do
      let vs := line.data.map fun c => Value.str (String.mk [c])
      some do
        let (a, st) ← getValue st source
        storeValueList st a vs

/-- Result of one fetch-dispatch step of `Interpreter.run`. -/
inductive StepRes where
  | halt
  | diverge
  | err (e : PyErr)
  | next (st : VMSt)
deriving DecidableEq, Repr

/-- Lift a handler result into a step result. -/
def toRes : Except PyErr VMSt → StepRes
  | .ok st => .next st
  | .error e => .err e

/-- The loop body of `Interpreter.run`: fetch `ircode[self.pc]` (an
`IndexError` ends execution), advance the program counter, dispatch on
the base opcode; label pseudo-instructions have no handler and are
silently skipped. -/
def step (fuel : Nat) (code : List Instr) (st : VMSt) : StepRes :=
  match code.get? st.pc with
  | none => .halt
  | some instr =>
    let st := { st with pc := st.pc + 1 }
    match instr with
    | .label _ => .next st
    | .alloc size v => toRes (runAlloc v size st)
    | .literal _ v t => toRes (runLiteral v t st)
    | .elem _ s i t => toRes (runElem s i t st)
    | .load _ v t => toRes (runLoad v t st)
    | .store _ s t => toRes (runStore s t st)
    | .get _ s t => toRes (runGet s t st)
    | .jump t => toRes (runJump t st)
    | .cbranch c tt ft => toRes (runCBranch c tt ft st)
    | .binop op ty l r t => toRes (runBinop op ty l r t st)
    | .lnot _ e t => toRes (runNot e t st)
    | .call _ s t => toRes (runCall s t st)
    | .ret _ t => toRes (runReturn t st)
    | .define _ s args => toRes (runDefine s args st)
    | .param _ s => toRes (runParam s st)
    | .read ty s =>
      match runRead fuel ty s st with
      | none => .diverge
      | some (.ok st) => .next st
      | some (.error e) => .err e
    | .print _ s => toRes (runPrint s st)

/-- Iterate `step` a bounded number of times, stopping at the first
non-`next` outcome. -/
def stepN (fuel : Nat) : Nat → List Instr → VMSt → StepRes
  | 0, _, st => .next st
  | n + 1, code, st =>
    match step fuel code st with
    | .next st => stepN fuel n code st
    | r => r

/-- The target register content of a successful handler result. -/
def exceptReg (r : Except PyErr VMSt) (k : Nat) : Option Value :=
  match r with
  | .ok s => some (regRead s.registers k)
  | .error _ => none

/-- `CodeGenerator.visit_FuncCall` (uc_code.py lines 285-297), with the
recursive sub-visits abstracted: `source` is the variable returned for
the callee, `params` the (type, variable) pairs for the actuals in
left-to-right order, `target` the fresh temporary from `new_temp`.  The
body emits one `ParamInstr` per actual (bound to the loop variable
`instr`), constructs `CallInstr(node.uc_type, source, target)` into the
misspelled local `isntr`, and then appends `instr` — i.e. the *last
parameter instruction* — a second time; with no actuals, `instr` was
never assigned and the append raises `UnboundLocalError`.  The result is
the list of appended instructions and the returned temporary. -/
def visitFuncCall (ty : IRType) (source : PyVar) (params : List (IRType × PyVar))
    (target : Nat) : Option (List Instr × Nat) :=
  let emitted := params.map fun p => Instr.param p.1 p.2
  let _isntr := Instr.call ty source (some target)
  match emitted.getLast? with
  | none => none
  | some stale => some (emitted ++ [stale], target)

/-- `CodeGenerator.visit_Assignment` (uc_code.py lines 211-221), non-
identifier right side, with the sub-visits abstracted: `value` is the
variable returned for the left operand, `target` the temporary returned
by visiting the right operand in reference mode, `zero` the fresh
temporary of `_new_constant(IntType, 0)`.  The appended instructions are
the literal 0 and `ElemInstr(node.uc_type, value, zero, target)`. -/
def assignNonIdEmit (ty : IRType) (value : PyVar) (target zeroTmp : Nat) :
    List Instr :=
  [.literal .int (.int 0) zeroTmp, .elem ty value (.temp zeroTmp) target]

/-- The sanitization of `GlobalBlock.new_literal`: every non-alphanumeric
character of the type name becomes an underscore. -/
def sanitizeTypename (t : String) : String :=
  String.mk (t.data.map fun ch => if ch.isAlphanum then ch else '_')

/-- State of `uc_block.GlobalBlock` as far as literal constants are
concerned: the per-name version counters of `CountedBlock` (default 0),
the `consts` cache keyed by the (typename, value) pair, and the `text`
section of emitted `GlobalInstr` entries (typename, variable, value). -/
structure GB where
  count : List (String × Nat)
  consts : List ((String × String) × PyVar)
  text : List (String × PyVar × String)
deriving DecidableEq, Repr

/-- The freshly constructed global block. -/
def GB.empty : GB := ⟨[], [], []⟩

/-- `DefaultDict` read of a version counter (missing keys read 0). -/
def countGet : List (String × Nat) → String → Nat
  | [], _ => 0
  | (k, v) :: rest, key => if k = key then v else countGet rest key

/-- `CountedBlock._new_version`: post-increment of the counter. -/
def countBump : List (String × Nat) → String → List (String × Nat)
  | [], key => [(key, 1)]
  | (k, v) :: rest, key =>
    if k = key then (k, v + 1) :: rest else (k, v) :: countBump rest key

/-- Lookup in the `consts` cache (`self.consts.get((typename, value))`;
tuple keys compare structurally). -/
def constsGet : List ((String × String) × PyVar) → String × String → Option PyVar
  | [], _ => none
  | (k, v) :: rest, key => if k = key then some v else constsGet rest key

/-- `GlobalBlock.new_literal`: return the cached symbol for an identical
(typename, value) pair, or sanitize the name, take the next version,
register the new `TextVariable` in the text section and the cache. -/
def newLiteral (g : GB) (typename value : String) : PyVar × GB :=
  match constsGet g.consts (typename, value) with
  | some v => (v, g)
  | none =>
    let name := sanitizeTypename typename
    let ver := countGet g.count name
    let v := PyVar.text name ver
    (v, { count := countBump g.count name,
          consts := g.consts ++ [((typename, value), v)],
          text := g.text ++ [(typename, v, value)] })

/-- A sequence of `new_literal` calls with one typename, returning the
symbols in call order. -/
def runLits (g : GB) (t : String) : List String → List PyVar × GB
  | [] => ([], g)
  | v :: vs =>
    let r := newLiteral g t v
    let rest := runLits r.2 t vs
    (r.1 :: rest.1, rest.2)

/-- The version suffix of a text-constant symbol. -/
def texVersion : PyVar → Nat
  | .text _ v => v
  | _ => 0

/-! ## Register-bank lemmas -/

theorem allocReg_length (l : List Value) (n : Nat) : n < (allocReg l n).length := by
  unfold allocReg
  split
  · simp only [List.length_append, List.length_replicate]
    omega
  · omega

theorem regRead_allocReg (l : List Value) (n m : Nat) :
    regRead (allocReg l n) m = regRead l m := by
  unfold allocReg regRead
  split
  · rw [List.getD_eq_getElem?_getD, List.getD_eq_getElem?_getD, List.getElem?_append]
    split
    · rfl
    · rw [List.getElem?_replicate]
      rw [List.getElem?_eq_none (by omega)]
      split <;> rfl
  · rfl

theorem regRead_set_self (l : List Value) (n : Nat) (v : Value)
    (h : n < l.length) : regRead (l.set n v) n = v := by
  unfold regRead
  rw [List.getD_eq_getElem?_getD, List.getElem?_set_self h]
  rfl

theorem regRead_set_ne (l : List Value) (n m : Nat) (v : Value)
    (h : n ≠ m) : regRead (l.set n v) m = regRead l m := by
  unfold regRead
  rw [List.getD_eq_getElem?_getD, List.getD_eq_getElem?_getD, List.getElem?_set_ne h]

/-! ## Claim theorems -/

/-- Claim C1.  For a call with one actual argument, `visit_FuncCall`
appends the parameter instruction a second time instead of the
constructed call instruction: the appended sequence is two copies of the
`param` and contains no `call` at all (the `isntr`/`instr` typo at
uc_code.py line 295), contradicting the claim that the instruction just
constructed from the callee address and fresh target is appended. -/
theorem funcCall_emits_stale_param_not_call :
    visitFuncCall .int (.global "f") [(.int, .temp 1)] 2
      = some ([.param .int (.temp 1), .param .int (.temp 1)], 2)
    ∧ Instr.call .int (.global "f") (some 2) ∉
        [Instr.param .int (.temp 1), Instr.param .int (.temp 1)]
    ∧ visitFuncCall .int (.global "f") [] 2 = none := by
  refine ⟨by decide, by decide, by decide⟩

/-- Claim C2.  Executing the code generated for an assignment whose right
side is not a plain identifier (left value 5 in register 1, right-side
address 4 in register 2, fresh zero temporary 3) leaves memory completely
unchanged — in particular the cell at the produced address 4 still holds
its prior value 0, not the left operand's value 5; instead the `elem`
instruction overwrites the address register with `M[5 + 0] = 42`. -/
theorem assignment_nonid_does_not_store :
    stepN 0 2 (assignNonIdEmit .int (.temp 1) 2 3)
        { VMSt.mk0 [.int 0, .int 0, .int 0, .int 0, .int 0, .int 42]
            [.uninit, .int 5, .int 4] with pc := 0 }
      = .next { VMSt.mk0 [.int 0, .int 0, .int 0, .int 0, .int 0, .int 42]
            [.uninit, .int 5, .int 42, .int 0] with pc := 2 }
    ∧ [Value.int 0, .int 0, .int 0, .int 0, .int 0, .int 42].getD 4 .uninit
        ≠ .int 5 := by
  refine ⟨by decide, by decide⟩

/-- Claim C4.  Executing `div_int` with the uninitialized marker as the
left operand raises `TypeError` (the marker defines `__div__` and
`__truediv__` but no `__floordiv__`, and `run_div` uses `//` for
non-float types), so the operation does not complete with the marker as
claimed; the same operands under `add_int` do absorb to the marker, and
under `eq_int` yield false, as the claim states for those opcodes. -/
theorem div_int_uninitialized_raises :
    step 0 [.binop .div .int (.temp 0) (.temp 1) 2] (VMSt.mk0 [] [.uninit, .int 2])
      = .err .typeError
    ∧ step 0 [.binop .div .int (.temp 0) (.temp 1) 2] (VMSt.mk0 [] [.int 7, .uninit])
      = .err .typeError
    ∧ step 0 [.binop .add .int (.temp 0) (.temp 1) 2] (VMSt.mk0 [] [.uninit, .int 2])
      = .next { VMSt.mk0 [] [.uninit, .int 2, .uninit] with pc := 1 }
    ∧ step 0 [.binop .eq .int (.temp 0) (.temp 1) 2] (VMSt.mk0 [] [.uninit, .int 2])
      = .next { VMSt.mk0 [] [.uninit, .int 2, .bool false] with pc := 1 } := by
  refine ⟨by decide, by decide, by decide, by decide⟩

/-- Claim C5, counterexample.  A `div_int` on operands -7 and 2 produces
-4 (Python `//` is floor division), while truncation toward zero gives
`Int.tdiv (-7) 2 = -3`: the claim that division truncates toward zero for
one negative operand is false on the code. -/
theorem div_int_floor_counterexample :
    step 0 [.binop .div .int (.temp 0) (.temp 1) 2] (VMSt.mk0 [] [.int (-7), .int 2])
      = .next { VMSt.mk0 [] [.int (-7), .int 2, .int (-4)] with pc := 1 }
    ∧ Int.tdiv (-7) 2 = -3
    ∧ (Value.int (-4)) ≠ (.int (-3)) := by
  refine ⟨by decide, by decide, by decide⟩

/-- Claim C6.  A `read_int` whose buffered line is the single token
`"42"` — a perfectly valid number — does not consume it and does not
store it: `line.split(" ", maxsplit=1)` yields a one-element list, the
two-element unpacking in `_read_word` raises `ValueError`, the handler
prints `Illegal input value.` and the read is abandoned with memory, the
destination cell `M[3] = 99`, and the input buffer all unchanged.  With a
space after the token the same read succeeds and stores 42. -/
theorem read_int_single_token_line_fails :
    step 3 [.read .int (.temp 0)]
        { VMSt.mk0 [.int 0, .int 0, .int 0, .int 99] [.int 3] with input := some "42" }
      = .next { VMSt.mk0 [.int 0, .int 0, .int 0, .int 99] [.int 3] with
                  pc := 1, input := some "42", err := ["Illegal input value."] }
    ∧ step 3 [.read .int (.temp 0)]
        { VMSt.mk0 [.int 0, .int 0, .int 0, .int 99] [.int 3] with input := some "42 7" }
      = .next { VMSt.mk0 [.int 0, .int 0, .int 0, .int 42] [.int 3] with
                  pc := 1, input := some "7" } := by
  refine ⟨by decide, by decide⟩

/-- Claim C8, counterexample.  Two `TextVariable`s with the same
sanitized type name but different version suffixes compare equal under
the dataclass equality (the version is not a dataclass field), refuting
the claim that text constants are equal only when their version suffixes
coincide. -/
theorem textvariable_eq_ignores_version_counterexample :
    pyVarEq (.text "string" 0) (.text "string" 1) = true ∧ (0 : Nat) ≠ 1 := by
  refine ⟨by decide, by decide⟩

theorem readLineLoop_eof (n : Nat) (st : VMSt) (hstdin : st.stdin = [])
    (hinput : st.input = none ∨ st.input = some "") :
    readLineLoop n st = none := by
  induction n generalizing st with
  | zero => rfl
  | succ n ih =>
    unfold readLineLoop
    have ht : truthyInput st.input = false := by
      rcases hinput with h | h <;> simp [truthyInput, h]
    rw [ht, hstdin]
    simp only [Bool.false_eq_true, if_false]
    exact ih _ rfl (Or.inr rfl)

/-- Claim C9.  A `read` executed with standard input exhausted never
completes: however many iterations the `_read_line` refill loop is
granted, it has not returned — `readline()` yields `""`, the diagnostic
is printed, the buffer is set to `""` and the loop repeats forever. -/
theorem read_line_eof_never_returns :
    ∀ n : Nat, readLineLoop n (VMSt.mk0 [] []) = none :=
  fun n => readLineLoop_eof n _ rfl (Or.inl rfl)

theorem allocReg_of_lt (l : List Value) (n : Nat) (h : n < l.length) :
    allocReg l n = l := by
  unfold allocReg
  rw [if_neg (by omega)]

theorem replicate_append_set (a v : Value) (s : List Value) :
    ∀ n, (List.replicate (n + 1) a ++ s).set n v = List.replicate n a ++ v :: s
  | 0 => rfl
  | n + 1 => by
    rw [List.replicate_succ, List.cons_append, List.set_cons_succ,
        replicate_append_set a v s n, List.replicate_succ, List.cons_append]

theorem popLast_concat (L : List Value) (b : Value) :
    popLast (L ++ [b]) = some (L, b) := by
  unfold popLast
  rw [List.getLast?_concat, List.dropLast_concat]

theorem defineLoop_closed :
    ∀ (n : Nat) (ps suffix : List Value), ps.length ≤ n →
      defineLoop (((List.range n).map fun i => (IRType.int, i)).reverse)
          (List.replicate n Value.uninit ++ suffix) ps
        = (List.replicate (n - ps.length) Value.uninit ++ ps ++ suffix, []) := by
  intro n
  induction n with
  | zero =>
    intro ps suffix hps
    rw [List.length_eq_zero.mp (Nat.le_zero.mp hps)]
    simp [defineLoop]
  | succ n ih =>
    intro ps suffix hps
    rw [List.range_succ, List.map_append, List.reverse_append]
    rcases List.eq_nil_or_concat ps with hnil | ⟨L, b, hcons⟩
    · subst hnil
      show defineLoop ((IRType.int, n) :: ([] ++ _)) _ _ = _
      rw [List.nil_append]
      unfold defineLoop
      show defineLoop _ (allocReg _ n) [] = _
      rw [allocReg_of_lt _ _ (by simp; omega)]
      rw [List.replicate_succ' n, List.append_assoc, List.singleton_append]
      rw [ih [] (Value.uninit :: suffix) (by simp)]
      simp [List.replicate_succ' n]
    · rw [List.concat_eq_append] at hcons
      subst hcons
      show defineLoop ((IRType.int, n) :: ([] ++ _)) _ _ = _
      rw [List.nil_append]
      unfold defineLoop
      rw [popLast_concat]
      show defineLoop _ ((allocReg _ n).set n b) L = _
      rw [allocReg_of_lt _ _ (by simp; omega)]
      rw [replicate_append_set]
      have hL : L.length ≤ n := by
        simp at hps
        omega
      rw [ih L (b :: suffix) hL]
      have harith : n - L.length = n + 1 - (L ++ [b]).length := by
        simp only [List.length_append, List.length_cons, List.length_nil]
        omega
      rw [harith]
      simp [List.append_assoc]

theorem defineLoop_range_nil (n : Nat) (ps : List Value) (hps : ps.length ≤ n) :
    defineLoop (((List.range n).map fun i => (IRType.int, i)).reverse) [] ps
      = (List.replicate (n - ps.length) Value.uninit ++ ps, []) := by
  cases n with
  | zero =>
    rw [List.length_eq_zero.mp (Nat.le_zero.mp hps)]
    simp [defineLoop]
  | succ n =>
    rw [List.range_succ, List.map_append, List.reverse_append]
    have ha : allocReg [] n = List.replicate (n + 1) Value.uninit := by
      unfold allocReg
      simp
    rcases List.eq_nil_or_concat ps with hnil | ⟨L, b, hcons⟩
    · subst hnil
      show defineLoop ((IRType.int, n) :: ([] ++ _)) _ _ = _
      rw [List.nil_append]
      unfold defineLoop
      show defineLoop _ (allocReg _ n) [] = _
      rw [ha, List.replicate_succ' n]
      rw [defineLoop_closed n [] [Value.uninit] (by simp)]
      simp [List.replicate_succ' n]
    · rw [List.concat_eq_append] at hcons
      subst hcons
      show defineLoop ((IRType.int, n) :: ([] ++ _)) _ _ = _
      rw [List.nil_append]
      unfold defineLoop
      rw [popLast_concat]
      show defineLoop _ ((allocReg _ n).set n b) L = _
      rw [ha]
      have hset : (List.replicate (n + 1) Value.uninit).set n b
          = List.replicate n Value.uninit ++ [b] := by
        have := replicate_append_set Value.uninit b [] n
        simpa using this
      rw [hset]
      have hL : L.length ≤ n := by
        simp at hps
        omega
      rw [defineLoop_closed n L [b] hL]
      have harith : n - L.length = n + 1 - (L ++ [b]).length := by
        simp only [List.length_append, List.length_cons, List.length_nil]
        omega
      rw [harith]
      simp

/-- Claim C10.  A `define` with `n` formal parameters (bound to the
temporaries 0 .. n-1 in order) executed on a fresh register bank with
fewer queued actuals than formals completes without error: the resulting
bank is `Uninit` on the unmatched leading formals followed by the queued
actuals, the parameter queue is emptied, and the local-variable table is
replaced by the function's label table alone. -/
theorem define_missing_params_uninitialized
    (n : Nat) (ps : List Value) (st : VMSt) (fname : PyVar)
    (lbls : List (String × Nat))
    (hregs : st.registers = []) (hps : st.params = ps) (hlen : ps.length < n)
    (hlbl : labelsGet st.labels fname = some lbls) :
    runDefine fname ((List.range n).map fun i => (IRType.int, i)) st
      = .ok { st with
                registers := List.replicate (n - ps.length) Value.uninit ++ ps,
                params := [], vars := allocLabels st.pc lbls }
    ∧ ∀ i, i < n - ps.length →
        regRead (List.replicate (n - ps.length) Value.uninit ++ ps) i
          = .uninit := by
  constructor
  · unfold runDefine
    rw [hregs, hps, defineLoop_range_nil n ps (Nat.le_of_lt hlen), hlbl]
  · intro i hi
    unfold regRead
    rw [List.getD_eq_getElem?_getD, List.getElem?_append]
    rw [if_pos (by simpa using hi), List.getElem?_replicate, if_pos hi]
    rfl

theorem countGet_countBump_self (c : List (String × Nat)) (k : String) :
    countGet (countBump c k) k = countGet c k + 1 := by
  induction c with
  | nil => simp [countBump, countGet]
  | cons p rest ih =>
    obtain ⟨k', v⟩ := p
    by_cases h : k' = k <;> simp [countBump, countGet, h, ih]

theorem constsGet_append (l : List ((String × String) × PyVar))
    (k key : String × String) (v : PyVar) (h : constsGet l key = none) :
    constsGet (l ++ [(k, v)]) key = if k = key then some v else none := by
  induction l with
  | nil => simp [constsGet]
  | cons p rest ih =>
    obtain ⟨k', w⟩ := p
    by_cases hk : k' = key
    · simp [constsGet, hk] at h
    · simp only [constsGet, List.cons_append, if_neg hk] at h ⊢
      exact ih h

theorem runLits_versions :
    ∀ (vs : List String) (g : GB) (t : String),
      (∀ v ∈ vs, constsGet g.consts (t, v) = none) → vs.Pairwise (· ≠ ·) →
      (runLits g t vs).1.map texVersion
        = List.range' (countGet g.count (sanitizeTypename t)) vs.length := by
  intro vs
  induction vs with
  | nil => intro g t _ _; simp [runLits]
  | cons v vs ih =>
    intro g t hnone hpw
    have hv : constsGet g.consts (t, v) = none := hnone v (by simp)
    have hnl : newLiteral g t v =
        (PyVar.text (sanitizeTypename t) (countGet g.count (sanitizeTypename t)),
         { count := countBump g.count (sanitizeTypename t)
           consts := g.consts ++
             [((t, v), PyVar.text (sanitizeTypename t)
                 (countGet g.count (sanitizeTypename t)))]
           text := g.text ++
             [(t, PyVar.text (sanitizeTypename t)
                 (countGet g.count (sanitizeTypename t)), v)] }) := by
      unfold newLiteral
      rw [hv]
    have hne : ∀ w ∈ vs, v ≠ w := fun w hw => List.rel_of_pairwise_cons hpw hw
    have htail : ∀ w ∈ vs,
        constsGet (g.consts ++
          [((t, v), PyVar.text (sanitizeTypename t)
              (countGet g.count (sanitizeTypename t)))]) (t, w) = none := by
      intro w hw
      rw [constsGet_append _ _ _ _ (hnone w (by simp [hw]))]
      rw [if_neg]
      intro hkey
      exact hne w hw (congrArg Prod.snd hkey)
    simp only [runLits, hnl, List.map_cons, texVersion, List.length_cons]
    rw [ih _ t htail hpw.of_cons]
    rw [countGet_countBump_self]
    rfl

theorem newLiteral_cached (g : GB) (t v : String) (x : PyVar)
    (h : constsGet g.consts (t, v) = some x) : newLiteral g t v = (x, g) := by
  unfold newLiteral
  rw [h]

theorem newLiteral_consts_lookup (g : GB) (t v : String) :
    constsGet (newLiteral g t v).2.consts (t, v) = some (newLiteral g t v).1 := by
  cases h : constsGet g.consts (t, v) with
  | some w =>
    rw [newLiteral_cached g t v w h]
    exact h
  | none =>
    have h1 : (newLiteral g t v).2.consts
        = g.consts ++ [((t, v), (newLiteral g t v).1)] := by
      unfold newLiteral
      rw [h]
    rw [h1, constsGet_append _ _ _ _ h, if_pos rfl]

/-- Claim C7.  On one global block: an immediately repeated `new_literal`
with an identical (typename, value) pair — from any block state — returns
the very same symbol and leaves the text section unchanged; and a
sequence of calls with one typename and pairwise-distinct values, from
the fresh block, returns pairwise-distinct symbols whose version suffixes
are exactly 0, 1, 2, ... in call order (strictly increasing). -/
theorem new_literal_dedup_and_versions :
    (∀ (g : GB) (t v : String),
      (newLiteral (newLiteral g t v).2 t v).1 = (newLiteral g t v).1
      ∧ (newLiteral (newLiteral g t v).2 t v).2.text = (newLiteral g t v).2.text)
    ∧ ∀ (t : String) (vs : List String), vs.Pairwise (· ≠ ·) →
        (runLits GB.empty t vs).1.map texVersion = List.range vs.length
        ∧ (runLits GB.empty t vs).1.Pairwise (· ≠ ·) := by
  constructor
  · intro g t v
    rw [newLiteral_cached _ t v _ (newLiteral_consts_lookup g t v)]
    exact ⟨rfl, rfl⟩
  · intro t vs hpw
    have hmap := runLits_versions vs GB.empty t
      (by intro w _; simp [GB.empty, constsGet]) hpw
    have hcount : countGet GB.empty.count (sanitizeTypename t) = 0 := rfl
    rw [hcount] at hmap
    rw [← List.range_eq_range'] at hmap
    refine ⟨hmap, ?_⟩
    have hnd : ((runLits GB.empty t vs).1.map texVersion).Pairwise (· ≠ ·) := by
      rw [hmap]
      exact List.nodup_range vs.length
    rw [List.pairwise_map] at hnd
    exact hnd.imp fun h heq => h (congrArg texVersion heq)

/-- Concrete instance of claim C7: two distinct values get versions
0 and 1. -/
theorem new_literal_dedup_and_versions_witness :
    (runLits GB.empty "string" ["a", "b"]).1.map texVersion = List.range 2 :=
  (new_literal_dedup_and_versions.2 "string" ["a", "b"] (by decide)).1

/-- Claim C8 (amended).  The dataclass equality of symbolic variables is
exactly: same concrete class (kind) and same `name` field — the version
suffix of a text constant is *not* part of the comparison; and the hash
is a function of that same data (it depends on the `name` field alone),
so equal variables hash alike.  Object identity is never consulted. -/
theorem variable_eq_by_kind_and_name (a b : PyVar) :
    (pyVarEq a b = true ↔
      pyVarKind a = pyVarKind b ∧ pyVarPayload a = pyVarPayload b)
    ∧ (pyVarEq a b = true → pyVarHash a = pyVarHash b) := by
  have hiff : pyVarEq a b = true ↔
      pyVarKind a = pyVarKind b ∧ pyVarPayload a = pyVarPayload b := by
    cases a <;> cases b <;> simp [pyVarEq, pyVarKind, pyVarPayload]
  refine ⟨hiff, fun h => ?_⟩
  unfold pyVarHash
  exact (hiff.mp h).2

/-- Concrete instance of claim C8 (amended): two text constants that the
dataclass equality identifies hash alike. -/
theorem variable_eq_by_kind_and_name_witness :
    pyVarHash (.text "a" 0) = pyVarHash (.text "a" 1) :=
  (variable_eq_by_kind_and_name (.text "a" 0) (.text "a" 1)).2 (by decide)

/-- Claim C5 (amended).  For every `div` instruction with a non-float
operand type the interpreter computes the *floor* of the quotient
(`Int.fdiv`, rounding toward negative infinity — which differs from
truncation toward zero when exactly one operand is negative and the
division is inexact), and for the float type it computes true division
(exact on the rational model of floats). -/
theorem div_floor_and_float_exact :
    (∀ (st : VMSt) (i j k : Nat) (ty : IRType) (a b : Int),
      ty ≠ .float → regRead st.registers i = .int a →
      regRead st.registers j = .int b → b ≠ 0 →
      exceptReg (runDiv ty (.temp i) (.temp j) k st) k
        = some (.int (Int.fdiv a b)))
    ∧ ∀ (st : VMSt) (i j k : Nat) (p q : ℚ),
      regRead st.registers i = .float p → regRead st.registers j = .float q →
      q ≠ 0 →
      exceptReg (runDiv .float (.temp i) (.temp j) k st) k
        = some (.float (p / q)) := by
  constructor
  · intro st i j k ty a b hty hi hj hb
    unfold runDiv
    rw [if_neg hty]
    simp only [runBinRaw, getValue, bind, Except.bind]
    rw [regRead_allocReg, hi, regRead_allocReg, regRead_allocReg, hj]
    simp only [pyFloorDiv, intVal, if_neg hb]
    simp only [exceptReg]
    exact congrArg some (regRead_set_self _ _ _ (allocReg_length _ _))
  · intro st i j k p q hi hj hq
    unfold runDiv
    rw [if_pos rfl]
    simp only [runBinRaw, getValue, bind, Except.bind]
    rw [regRead_allocReg, hi, regRead_allocReg, regRead_allocReg, hj]
    simp only [pyTrueDiv, numQ, if_neg hq]
    simp only [exceptReg]
    exact congrArg some (regRead_set_self _ _ _ (allocReg_length _ _))

theorem allocReg_cons (x : Value) (l : List Value) (n : Nat) :
    ∃ t, allocReg (x :: l) n = x :: t := by
  unfold allocReg
  split
  · exact ⟨_, List.cons_append x l _⟩
  · exact ⟨l, rfl⟩

/-- Claim C3.  Balanced call/return at arbitrary depth (the caller state
`s`, including its stack, is arbitrary).  First conjunct: dispatching a
`call` instruction pushes exactly the caller's local table and (grown)
register bank, offset, designated target register, and the return
counter `s.pc + 1` — the instruction after the call — onto the four
stacks, and hands the callee an empty bank.  Second conjunct: a `return`
executed in any callee state whose four stacks are exactly those pushed
ones restores the caller's local-variable table and offset, pops all
four stacks back, resumes at the instruction after the call, and leaves
the caller's register bank intact except at the designated target
register, which receives the callee's register 0 (after the optional
store of the returned operand into register 0).  Third conjunct: every
register other than the target reads as it did at the call. -/
theorem call_return_restores_caller_state
    (fuel : Nat) (code : List Instr) (s : VMSt) (ty : IRType) (src : PyVar)
    (tgt : Nat) (callee : VMSt) (r0 : Value) (rest : List Value)
    (rt : Option Nat)
    (hfetch : code.get? s.pc = some (.call ty src (some tgt)))
    (hregs : callee.registers = r0 :: rest)
    (hstack : callee.stack = (s.vars, allocReg s.registers tgt) :: s.stack)
    (hsp : callee.sp = s.offset :: s.sp)
    (hretval : callee.retval = tgt :: s.retval)
    (hreturns : callee.returns = (s.pc + 1) :: s.returns) :
    (∀ c₀, step fuel code s = .next c₀ →
        c₀.vars = s.vars ∧ c₀.registers = [] ∧
        c₀.stack = (s.vars, allocReg s.registers tgt) :: s.stack ∧
        c₀.sp = s.offset :: s.sp ∧ c₀.retval = tgt :: s.retval ∧
        c₀.returns = (s.pc + 1) :: s.returns)
    ∧ runReturn (rt.map PyVar.temp) callee =
        .ok { callee with
                vars := s.vars
                registers := (allocReg s.registers tgt).set tgt
                  (match rt with
                   | none => r0
                   | some m => regRead (r0 :: rest) m)
                stack := s.stack
                sp := s.sp
                retval := s.retval
                returns := s.returns
                offset := s.offset
                pc := s.pc + 1 }
    ∧ ∀ i, i ≠ tgt →
        regRead ((allocReg s.registers tgt).set tgt
            (match rt with | none => r0 | some m => regRead (r0 :: rest) m)) i
          = regRead s.registers i := by
  refine ⟨?_, ?_, ?_⟩
  · intro c₀ h
    unfold step at h
    rw [hfetch] at h
    simp only [] at h
    unfold runCall runCallJump at h
    split at h
    all_goals try split at h
    all_goals try split at h
    all_goals try split at h
    all_goals simp only [toRes] at h
    all_goals first
      | exact StepRes.noConfusion h
      | (injection h with h; subst h; simp [pushFrame])
  · cases rt with
    | none =>
      simp only [Option.map_none', runReturn]
      unfold popFrame
      rw [hregs, hstack, hretval, hsp, hreturns]
      simp only [if_pos (allocReg_length s.registers tgt)]
    | some m =>
      simp only [Option.map_some', runReturn, getValue]
      rw [hregs, regRead_allocReg]
      obtain ⟨t, ht⟩ := allocReg_cons r0 rest m
      rw [ht, List.set_cons_zero]
      unfold popFrame
      simp only [hstack, hretval, hsp, hreturns]
      simp only [if_pos (allocReg_length s.registers tgt)]
  · intro i hi
    rw [regRead_set_ne _ _ _ _ (Ne.symm hi), regRead_allocReg]

/-- Concrete instance of claim C3: a one-deep balanced return restores
the caller's table, bank (except the target register 1, which receives
the callee's register 0, the value 5), offset and return counter. -/
theorem call_return_restores_caller_state_witness :
    runReturn none
        { VMSt.mk0 [.int 3] [.int 5] with
            stack := [([(.named "x", 0)], [.int 7, .uninit])]
            sp := [0]
            retval := [1]
            returns := [1] }
      = .ok { VMSt.mk0 [.int 3] [.int 5] with
                vars := [(.named "x", 0)]
                registers := [.int 7, .int 5]
                stack := []
                sp := []
                retval := []
                returns := []
                offset := 0
                pc := 1 } := by
  have h := (call_return_restores_caller_state 0
      [.call .int (.global "f") (some 1)]
      { VMSt.mk0 [.int 3] [.int 7] with vars := [(.named "x", 0)] }
      .int (.global "f") 1
      { VMSt.mk0 [.int 3] [.int 5] with
          stack := [([(.named "x", 0)], [.int 7, .uninit])]
          sp := [0]
          retval := [1]
          returns := [1] }
      (.int 5) [] none rfl rfl (by decide) rfl rfl rfl).2.1
  exact h.trans (by decide)

/-- Concrete instance of claim C5 (amended): `div_int` on -7 and 2 floors
to -4. -/
theorem div_floor_and_float_exact_witness :
    exceptReg (runDiv .int (.temp 0) (.temp 1) 2 (VMSt.mk0 [] [.int (-7), .int 2])) 2
      = some (.int (-4)) := by
  have h := div_floor_and_float_exact.1 (VMSt.mk0 [] [.int (-7), .int 2])
    0 1 2 .int (-7) 2 (by decide) rfl rfl (by decide)
  exact h.trans (by decide)

/-- Concrete instance of claim C10: three formals, one queued actual. -/
theorem define_missing_params_uninitialized_witness :
    runDefine (.global "f") ((List.range 3).map fun i => (IRType.int, i))
        { VMSt.mk0 [] [] with
            params := [.int 5]
            labels := [(.global "f", [("entry", 0)])] }
      = .ok { VMSt.mk0 [] [] with
                registers := [.uninit, .uninit, .int 5]
                params := []
                labels := [(.global "f", [("entry", 0)])]
                vars := [(.label "entry", 0)] }
    ∧ regRead [Value.uninit, .uninit, .int 5] 0 = .uninit := by
  have h := define_missing_params_uninitialized 3 [.int 5]
    { VMSt.mk0 [] [] with
        params := [.int 5]
        labels := [(.global "f", [("entry", 0)])] }
    (.global "f") [("entry", 0)] rfl rfl (by decide) (by decide)
  exact ⟨h.1.trans (by decide), h.2 0 (by decide)⟩

